import Mathlib

/-!
Verification development for the G-code motion-distance accumulator
(`GCodeReader` in `motion_minder/motion_minder.py` and
`motion_minder/printer_odometer.py`; the two copies of the class are
textually identical in the relevant methods).

The shallow embedding below mirrors the Python source line by line:

* A line of input is a `List Char` (the string returned by `readline`,
  terminator included for all but possibly the last line).
* `splitSpaces` models Python's `str.split(" ")` (single-space separator,
  empty segments kept).
* `pyFloat?` models `float(str)` on sign / decimal / exponent literals with
  surrounding ASCII whitespace; the exotic accepted forms (`inf`, `nan`,
  digit underscores) are omitted, which only shrinks the set of accepted
  tokens and is irrelevant to the inputs considered here.
* Numeric values are modelled as `ℚ`.  The source computes in IEEE doubles;
  every property below is about the exact field operations the source
  performs (sums of absolute values, assignment, subtraction of a snapshot),
  none of which depends on rounding for the stated facts.
* The file cursor is a byte offset (`tell`); reading a line advances it by
  the line's UTF-8 byte length.
-/

namespace MotionMinder

/-- Positioning mode, `self._mode` / `self._extruder_mode` in the source
(the strings `"absolute"` / `"relative"`). -/
inductive Mode where
  | absolute
  | relative
deriving DecidableEq, Repr

/-- One value per axis key, modelling the dicts
`{"x": _, "y": _, "z": _, "e": _}` of the source. -/
structure AxisVals where
  x : ℚ
  y : ℚ
  z : ℚ
  e : ℚ
deriving DecidableEq, Repr

/-- The mutable fields of a `GCodeReader` instance that the scan reads and
writes: `_mode`, `_extruder_mode`, `_last_positions`, `_total_distances`. -/
structure GState where
  mode : Mode
  extruderMode : Mode
  lastPositions : AxisVals
  totalDistances : AxisVals
deriving DecidableEq, Repr

/-- The state set up by `GCodeReader.__init__`: both modes absolute, all
positions and distances zero. -/
def initState : GState :=
  ⟨Mode.absolute, Mode.absolute, ⟨0, 0, 0, 0⟩, ⟨0, 0, 0, 0⟩⟩

/-- Python's `line.split(" ")`: split on every single space, keeping empty
segments; the result is never the empty list. -/
def splitSpaces : List Char → List (List Char)
  | [] => [[]]
  | c :: cs =>
    let r := splitSpaces cs
    if c = ' ' then [] :: r
    else
      match r with
      | [] => [[c]]
      | t :: ts => (c :: t) :: ts

/-- Whitespace stripped by Python's `float` (ASCII part). -/
def isPySpace (c : Char) : Bool :=
  c = ' ' || c = '\t' || c = '\n' || c = '\r' || c = '\x0b' || c = '\x0c'

/-- Strip `isPySpace` characters from both ends. -/
def stripWs (l : List Char) : List Char :=
  ((l.dropWhile isPySpace).reverse.dropWhile isPySpace).reverse

/-- Longest decimal-digit prefix, and the remainder. -/
def takeDigits : List Char → List Char × List Char
  | [] => ([], [])
  | c :: cs =>
    if c.isDigit then
      let (d, r) := takeDigits cs
      (c :: d, r)
    else ([], c :: cs)

/-- Value of a decimal digit string. -/
def digitsToNat (l : List Char) : Nat :=
  l.foldl (fun n c => n * 10 + (c.toNat - '0'.toNat)) 0

/-- `10 ^ n` in `ℚ` by plain recursion. -/
def pow10 : Nat → ℚ
  | 0 => 1
  | n + 1 => pow10 n * 10

/-- Optional leading sign; `true` means negative. -/
def parseSign : List Char → Bool × List Char
  | '-' :: r => (true, r)
  | '+' :: r => (false, r)
  | r => (false, r)

/-- Mantissa of a float literal: `digits`, `digits.`, `digits.digits` or
`.digits`; at least one digit overall. -/
def parseUnsigned (cs : List Char) : Option (ℚ × List Char) :=
  let (ip, r1) := takeDigits cs
  match r1 with
  | '.' :: r2 =>
    let (fp, r3) := takeDigits r2
    if ip = [] ∧ fp = [] then none
    else some ((digitsToNat ip : ℚ) + (digitsToNat fp : ℚ) / pow10 fp.length, r3)
  | _ => if ip = [] then none else some ((digitsToNat ip : ℚ), r1)

/-- Optional exponent part `e[±]digits`; absent exponent is `0`. -/
def parseExp : List Char → Option (Int × List Char)
  | [] => some (0, [])
  | c :: r =>
    if c = 'e' ∨ c = 'E' then
      let (neg, r2) := parseSign r
      let (ds, r3) := takeDigits r2
      if ds = [] then none
      else some ((if neg then -(digitsToNat ds : Int) else (digitsToNat ds : Int)), r3)
    else some (0, c :: r)

/-- Scale a rational by `10 ^ ex` for an integer exponent. -/
def scale10 (q : ℚ) : Int → ℚ
  | Int.ofNat n => q * pow10 n
  | Int.negSucc n => q / pow10 (n + 1)

/-- Model of Python's `float(s)` on a token: `none` exactly when the call
raises `ValueError` (for the literal forms modelled here). -/
def pyFloat? (l : List Char) : Option ℚ :=
  let s := stripWs l
  let (neg, r1) := parseSign s
  match parseUnsigned r1 with
  | none => none
  | some (m, r2) =>
    match parseExp r2 with
    | none => none
    | some (ex, r3) =>
      if r3 = [] then some (scale10 (if neg then -m else m) ex) else none

/-- One parameter token's contribution to the `moves` dict:
`moves[value[0]] = float(value[1:])`, skipped when `float` raises.
(The right-hand side is evaluated first in Python, so the empty token also
lands in the `except ValueError: pass` branch before `value[0]` is read.) -/
def tokenEntry (v : List Char) : Option (Char × ℚ) :=
  match v with
  | [] => none
  | c :: rest =>
    match pyFloat? rest with
    | none => none
    | some q => some (c, q)

/-- The `moves` dict built from the parameter tokens, latest binding first
(so `List.lookup` returns the last assignment, as a Python dict does). -/
def movesOf (values : List (List Char)) : List (Char × ℚ) :=
  values.foldl
    (fun m v =>
      match tokenEntry v with
      | none => m
      | some p => p :: m)
    []

/-- The recognized command set `GCodeReader._VALID_COMMANDS`. -/
def VALID_COMMANDS : List (List Char) :=
  ["G90".data, "G91".data, "G92".data, "G1".data, "G0".data, "M82".data, "M83".data]

/-- `abs` as Python computes it on the delta. -/
def absQ (q : ℚ) : ℚ := if q < 0 then -q else q

/-- The per-axis delta of a move: `abs(new - last)` in absolute mode,
the raw value in relative mode. -/
def modeDelta (m : Mode) (last v : ℚ) : ℚ :=
  if m = Mode.absolute then absQ (v - last) else v

/-- The `if "X" in moves` branch of a move command. -/
def applyX (st : GState) (moves : List (Char × ℚ)) : GState :=
  match moves.lookup 'X' with
  | none => st
  | some v =>
    { st with
      totalDistances :=
        { st.totalDistances with
          x := st.totalDistances.x + modeDelta st.mode st.lastPositions.x v }
      lastPositions := { st.lastPositions with x := v } }

/-- The `if "Y" in moves` branch of a move command. -/
def applyY (st : GState) (moves : List (Char × ℚ)) : GState :=
  match moves.lookup 'Y' with
  | none => st
  | some v =>
    { st with
      totalDistances :=
        { st.totalDistances with
          y := st.totalDistances.y + modeDelta st.mode st.lastPositions.y v }
      lastPositions := { st.lastPositions with y := v } }

/-- The `if "Z" in moves` branch of a move command. -/
def applyZ (st : GState) (moves : List (Char × ℚ)) : GState :=
  match moves.lookup 'Z' with
  | none => st
  | some v =>
    { st with
      totalDistances :=
        { st.totalDistances with
          z := st.totalDistances.z + modeDelta st.mode st.lastPositions.z v }
      lastPositions := { st.lastPositions with z := v } }

/-- The `if "E" in moves` branch of a move command.  Note the source
*assigns* `self._total_distances["e"]` instead of adding to it. -/
def applyE (st : GState) (moves : List (Char × ℚ)) : GState :=
  match moves.lookup 'E' with
  | none => st
  | some v =>
    { st with
      totalDistances :=
        { st.totalDistances with
          e := modeDelta st.extruderMode st.lastPositions.e v }
      lastPositions := { st.lastPositions with e := v } }

/-- A move command (`G1` / `G0`): X, Y, Z in order, then E. -/
def processMove (st : GState) (moves : List (Char × ℚ)) : GState :=
  applyE (applyZ (applyY (applyX st moves) moves) moves) moves

/-- The `G92` branch: set the last position of each axis present in the
parameters, touching nothing else. -/
def processReset (st : GState) (moves : List (Char × ℚ)) : GState :=
  let st :=
    match moves.lookup 'X' with
    | none => st
    | some v => { st with lastPositions := { st.lastPositions with x := v } }
  let st :=
    match moves.lookup 'Y' with
    | none => st
    | some v => { st with lastPositions := { st.lastPositions with y := v } }
  let st :=
    match moves.lookup 'Z' with
    | none => st
    | some v => { st with lastPositions := { st.lastPositions with z := v } }
  match moves.lookup 'E' with
  | none => st
  | some v => { st with lastPositions := { st.lastPositions with e := v } }

/-- The body of the scan loop after a line has been split: the
`_VALID_COMMANDS` membership test, the `moves` parse, and the command
dispatch, in the source's `elif` order. -/
def applyCommand (st : GState) (command : List Char) (values : List (List Char)) : GState :=
  if command ∈ VALID_COMMANDS then
    let moves := movesOf values
    if command = "G90".data then
      { st with mode := Mode.absolute, extruderMode := Mode.absolute }
    else if command = "G91".data then
      { st with mode := Mode.relative, extruderMode := Mode.relative }
    else if command = "M82".data then
      { st with extruderMode := Mode.absolute }
    else if command = "M83".data then
      { st with extruderMode := Mode.relative }
    else if command = "G1".data ∨ command = "G0".data then
      processMove st moves
    else if command = "G92".data then
      processReset st moves
    else st
  else st

/-- Process one raw input line: `command, *values = line.split(" ")`,
then `applyCommand`. -/
def processLine (st : GState) (line : List Char) : GState :=
  match splitSpaces line with
  | [] => st
  | command :: values => applyCommand st command values

/-- The command token of a line. -/
def commandOf (line : List Char) : List Char :=
  (splitSpaces line).headD []

/-- The parameter tokens of a line. -/
def paramsOf (line : List Char) : List (List Char) :=
  (splitSpaces line).tail

/-- Whether a line passes the `_VALID_COMMANDS` membership test (the
`continue` for unrecognized lines skips the `max_extrusion` check). -/
def isRecognized (line : List Char) : Bool :=
  decide (commandOf line ∈ VALID_COMMANDS)

/-- UTF-8 byte length of one character. -/
def charBytes (c : Char) : Nat :=
  if c.toNat < 128 then 1
  else if c.toNat < 2048 then 2
  else if c.toNat < 65536 then 3
  else 4

/-- UTF-8 byte length of a line: how far `readline` advances `tell()`. -/
def lineBytes (line : List Char) : Nat :=
  line.foldl (fun n c => n + charBytes c) 0

/-- The `tell() >= file_position` stop test (the caller may pass a negative
offset, e.g. `-1`, so the offset is an `Int`). -/
def stopAtPos (fp : Option Int) (pos : Nat) : Bool :=
  match fp with
  | none => false
  | some p => decide (p ≤ (pos : Int))

/-- The `distances["e"] > max_extrusion` stop test.  `distances` is the
start-of-call snapshot and is never written inside the loop, so the value
compared is the constant `snapE`. -/
def tripped (me : Option ℚ) (snapE : ℚ) : Bool :=
  match me with
  | none => false
  | some m => decide (m < snapE)

/-- The `while True` loop of `GCodeReader.read`: stop when the cursor is at
or beyond `file_position`, on end of input (`readline` returns a falsy
string), or — after processing a recognized command line — when the
`max_extrusion` test fires.  Returns the final state, cursor, and the
unconsumed lines. -/
def readLoop (fp : Option Int) (me : Option ℚ) (snapE : ℚ) :
    GState → Nat → List (List Char) → GState × Nat × List (List Char)
  | st, pos, [] => (st, pos, [])
  | st, pos, line :: rest =>
    if stopAtPos fp pos then (st, pos, line :: rest)
    else if line = [] then (st, pos, line :: rest)
    else
      let st' := processLine st line
      let pos' := pos + lineBytes line
      if isRecognized line && tripped me snapE then (st', pos', rest)
      else readLoop fp me snapE st' pos' rest

/-- A `GCodeReader` together with its stream: the accumulator state, the
current byte offset of the read cursor, and the lines not yet consumed. -/
structure GCodeReader where
  st : GState
  pos : Nat
  rest : List (List Char)
deriving DecidableEq, Repr

/-- A freshly constructed `GCodeReader` over the given file content. -/
def initReader (lines : List (List Char)) : GCodeReader :=
  ⟨initState, 0, lines⟩

/-- `GCodeReader.read`: snapshot the totals, run the loop, and return the
new reader state together with `total - snapshot` per axis. -/
def GCodeReader.read (r : GCodeReader) (fp : Option Int) (me : Option ℚ) :
    GCodeReader × AxisVals :=
  let snap := r.st.totalDistances
  match readLoop fp me snap.e r.st r.pos r.rest with
  | (st', pos', rest') =>
    (⟨st', pos', rest'⟩,
     ⟨st'.totalDistances.x - snap.x, st'.totalDistances.y - snap.y,
      st'.totalDistances.z - snap.z, st'.totalDistances.e - snap.e⟩)

/-- The E value of a line when the line is an E-bearing move command
(`G1`/`G0` with an `E` entry in its parsed parameters), else `none`. -/
def eMoveVal (line : List Char) : Option ℚ :=
  if commandOf line = "G1".data ∨ commandOf line = "G0".data then
    (movesOf (paramsOf line)).lookup 'E'
  else none

/-- All X/Y/Z values parsed from a line's parameters are non-negative
(no condition on axes absent from the parsed parameters). -/
def xyzValsNonneg (line : List Char) : Prop :=
  ∀ a ∈ (['X', 'Y', 'Z'] : List Char), ∀ v : ℚ,
    (movesOf (paramsOf line)).lookup a = some v → 0 ≤ v

/-- One full unlimited scan of a stream, as a step relation: consume lines
one at a time through `processLine` until end of input (or a falsy
`readline` result), exactly the control flow of `read` with no byte-offset
and no extrusion limit. -/
inductive ReadTrace : GState → List (List Char) → GState → Prop
  | done (st : GState) : ReadTrace st [] st
  | eof (st : GState) (rest : List (List Char)) : ReadTrace st ([] :: rest) st
  | step (st : GState) (line : List Char) (rest : List (List Char)) (st' : GState) :
      line ≠ [] → ReadTrace (processLine st line) rest st' →
      ReadTrace st (line :: rest) st'

/-- The result mapping of one full scan over `lines` from a freshly
constructed reader: some execution of the loop, started in `initState`,
whose final accumulated totals are the returned mapping (the start-of-call
snapshot of a fresh reader is zero, so the returned deltas are the totals). -/
def ScanOutcome (lines : List (List Char)) (r : AxisVals) : Prop :=
  ∃ st' : GState, ReadTrace initState lines st' ∧
    r = ⟨st'.totalDistances.x, st'.totalDistances.y,
         st'.totalDistances.z, st'.totalDistances.e⟩

/-! ## Helper lemmas -/

theorem splitSpaces_ne_nil (l : List Char) : splitSpaces l ≠ [] := by
  cases l with
  | nil => simp [splitSpaces]
  | cons c cs =>
    simp only [splitSpaces]
    split
    · simp
    · split <;> simp

theorem processLine_eq (st : GState) (line : List Char) :
    processLine st line = applyCommand st (commandOf line) (paramsOf line) := by
  rcases h : splitSpaces line with _ | ⟨c, vs⟩
  · exact absurd h (splitSpaces_ne_nil line)
  · simp [processLine, commandOf, paramsOf, h]

theorem applyCommand_G90 (st : GState) (vs : List (List Char)) :
    applyCommand st "G90".data vs =
      { st with mode := Mode.absolute, extruderMode := Mode.absolute } := rfl

theorem applyCommand_G91 (st : GState) (vs : List (List Char)) :
    applyCommand st "G91".data vs =
      { st with mode := Mode.relative, extruderMode := Mode.relative } := rfl

theorem applyCommand_M82 (st : GState) (vs : List (List Char)) :
    applyCommand st "M82".data vs = { st with extruderMode := Mode.absolute } := rfl

theorem applyCommand_M83 (st : GState) (vs : List (List Char)) :
    applyCommand st "M83".data vs = { st with extruderMode := Mode.relative } := rfl

theorem applyCommand_G1 (st : GState) (vs : List (List Char)) :
    applyCommand st "G1".data vs = processMove st (movesOf vs) := rfl

theorem applyCommand_G0 (st : GState) (vs : List (List Char)) :
    applyCommand st "G0".data vs = processMove st (movesOf vs) := rfl

theorem applyCommand_G92 (st : GState) (vs : List (List Char)) :
    applyCommand st "G92".data vs = processReset st (movesOf vs) := rfl

theorem applyCommand_not_mem (st : GState) (c : List Char) (vs : List (List Char))
    (h : c ∉ VALID_COMMANDS) : applyCommand st c vs = st := by
  unfold applyCommand
  rw [if_neg h]

theorem mem_VALID_COMMANDS_iff (c : List Char) :
    c ∈ VALID_COMMANDS ↔
      c = "G90".data ∨ c = "G91".data ∨ c = "G92".data ∨ c = "G1".data ∨
      c = "G0".data ∨ c = "M82".data ∨ c = "M83".data := by
  simp [VALID_COMMANDS]

theorem processMove_char (st : GState) (m : List (Char × ℚ)) :
    (processMove st m).mode = st.mode ∧
    (processMove st m).extruderMode = st.extruderMode ∧
    (processMove st m).totalDistances.x = st.totalDistances.x +
      (match m.lookup 'X' with
       | none => 0
       | some v => modeDelta st.mode st.lastPositions.x v) ∧
    (processMove st m).totalDistances.y = st.totalDistances.y +
      (match m.lookup 'Y' with
       | none => 0
       | some v => modeDelta st.mode st.lastPositions.y v) ∧
    (processMove st m).totalDistances.z = st.totalDistances.z +
      (match m.lookup 'Z' with
       | none => 0
       | some v => modeDelta st.mode st.lastPositions.z v) ∧
    (processMove st m).totalDistances.e =
      (match m.lookup 'E' with
       | none => st.totalDistances.e
       | some v => modeDelta st.extruderMode st.lastPositions.e v) := by
  unfold processMove applyX applyY applyZ applyE
  cases hX : List.lookup 'X' m <;> cases hY : List.lookup 'Y' m <;>
    cases hZ : List.lookup 'Z' m <;> cases hE : List.lookup 'E' m <;> simp

theorem processReset_char (st : GState) (m : List (Char × ℚ)) :
    (processReset st m).mode = st.mode ∧
    (processReset st m).extruderMode = st.extruderMode ∧
    (processReset st m).totalDistances = st.totalDistances ∧
    (processReset st m).lastPositions.x = (m.lookup 'X').getD st.lastPositions.x ∧
    (processReset st m).lastPositions.y = (m.lookup 'Y').getD st.lastPositions.y ∧
    (processReset st m).lastPositions.z = (m.lookup 'Z').getD st.lastPositions.z ∧
    (processReset st m).lastPositions.e = (m.lookup 'E').getD st.lastPositions.e := by
  unfold processReset
  cases hX : List.lookup 'X' m <;> cases hY : List.lookup 'Y' m <;>
    cases hZ : List.lookup 'Z' m <;> cases hE : List.lookup 'E' m <;> simp

theorem absQ_nonneg (q : ℚ) : 0 ≤ absQ q := by
  unfold absQ
  split <;> linarith

theorem read_fst (r : GCodeReader) (fp : Option Int) (me : Option ℚ) :
    (GCodeReader.read r fp me).1 =
      ⟨(readLoop fp me r.st.totalDistances.e r.st r.pos r.rest).1,
       (readLoop fp me r.st.totalDistances.e r.st r.pos r.rest).2.1,
       (readLoop fp me r.st.totalDistances.e r.st r.pos r.rest).2.2⟩ := by
  unfold GCodeReader.read
  rcases h : readLoop fp me r.st.totalDistances.e r.st r.pos r.rest with ⟨a, b, c⟩
  simp only [h]

theorem read_snd (r : GCodeReader) (fp : Option Int) (me : Option ℚ) :
    (GCodeReader.read r fp me).2 =
      ⟨(readLoop fp me r.st.totalDistances.e r.st r.pos r.rest).1.totalDistances.x
         - r.st.totalDistances.x,
       (readLoop fp me r.st.totalDistances.e r.st r.pos r.rest).1.totalDistances.y
         - r.st.totalDistances.y,
       (readLoop fp me r.st.totalDistances.e r.st r.pos r.rest).1.totalDistances.z
         - r.st.totalDistances.z,
       (readLoop fp me r.st.totalDistances.e r.st r.pos r.rest).1.totalDistances.e
         - r.st.totalDistances.e⟩ := by
  unfold GCodeReader.read
  rcases h : readLoop fp me r.st.totalDistances.e r.st r.pos r.rest with ⟨a, b, c⟩
  simp only [h]

theorem readLoop_stopped (p : Int) (me : Option ℚ) (snapE : ℚ) (st : GState)
    (pos : Nat) (lines : List (List Char)) (h : p ≤ (pos : Int)) :
    readLoop (some p) me snapE st pos lines = (st, pos, lines) := by
  cases lines with
  | nil => rfl
  | cons line rest =>
    unfold readLoop
    rw [if_pos (by simp [stopAtPos, h])]

theorem readLoop_no_limits (snapE : ℚ) (st : GState) (pos : Nat)
    (lines : List (List Char)) (h : ∀ l ∈ lines, l ≠ []) :
    (readLoop none none snapE st pos lines).1 = lines.foldl processLine st := by
  induction lines generalizing st pos with
  | nil => rfl
  | cons line rest ih =>
    unfold readLoop
    rw [if_neg (by simp [stopAtPos])]
    rw [if_neg (h line (by simp))]
    have ht : (isRecognized line && tripped none snapE) = false := by
      simp [tripped]
    rw [ht]
    simp only [Bool.false_eq_true, if_false, List.foldl_cons]
    exact ih (processLine st line) (pos + lineBytes line) (fun l hl => h l (by simp [hl]))

theorem foldl_total_e_unchanged (st : GState) (lines : List (List Char))
    (h : ∀ l ∈ lines, eMoveVal l = none) :
    (lines.foldl processLine st).totalDistances.e = st.totalDistances.e := by
  induction lines generalizing st with
  | nil => rfl
  | cons line rest ih =>
    simp only [List.foldl_cons]
    rw [ih (processLine st line) (fun l hl => h l (by simp [hl]))]
    have hline := h line (by simp)
    rw [processLine_eq]
    unfold eMoveVal at hline
    by_cases hmv : commandOf line = "G1".data ∨ commandOf line = "G0".data
    · rw [if_pos hmv] at hline
      rcases hmv with hmv | hmv <;> rw [hmv]
      · rw [applyCommand_G1, (processMove_char st (movesOf (paramsOf line))).2.2.2.2.2, hline]
      · rw [applyCommand_G0, (processMove_char st (movesOf (paramsOf line))).2.2.2.2.2, hline]
    · by_cases hmem : commandOf line ∈ VALID_COMMANDS
      · rcases (mem_VALID_COMMANDS_iff _).1 hmem with hc | hc | hc | hc | hc | hc | hc <;>
          rw [hc]
        · rw [applyCommand_G90]
        · rw [applyCommand_G91]
        · rw [applyCommand_G92]
          exact congrArg AxisVals.e (processReset_char st (movesOf (paramsOf line))).2.2.1
        · exact absurd (Or.inl hc) hmv
        · exact absurd (Or.inr hc) hmv
        · rw [applyCommand_M82]
        · rw [applyCommand_M83]
      · rw [applyCommand_not_mem _ _ _ hmem]

/-! ## Claim theorems -/

/-- C1: the claim says a scan with a numeric `max_extrusion` stops as soon
as the extrusion accumulated by this call strictly exceeds the limit, with
no further lines consumed.  The code instead compares the start-of-call
snapshot `distances["e"]` — never updated inside the loop — against the
limit, so the limit never trips on call-accumulated extrusion.  Concretely:
with `max_extrusion = 3`, the first line alone contributes extrusion `5 > 3`
(third conjunct), yet the scan consumes the second line as well (`rest = []`)
and accumulates its X distance of `10`. -/
theorem max_extrusion_snapshot_code_bug :
    (GCodeReader.read (initReader ["G1 E5\n".data, "G1 X10\n".data]) none (some 3)).1.rest
        = [] ∧
    (GCodeReader.read (initReader ["G1 E5\n".data, "G1 X10\n".data]) none (some 3)).2.x
        = 10 ∧
    (GCodeReader.read (initReader ["G1 E5\n".data]) none (some 3)).2.e = 5 ∧
    ¬ ((5 : ℚ) ≤ 3) := by
  have d5 : digitsToNat ['5'] = 5 := by decide
  have d10 : digitsToNat ['1', '0'] = 10 := by decide
  norm_num +decide [GCodeReader.read, readLoop, processLine, applyCommand, movesOf,
    tokenEntry, pyFloat?, stripWs, isPySpace, parseSign, parseUnsigned, parseExp,
    takeDigits, pow10, scale10, splitSpaces, VALID_COMMANDS, initReader, initState,
    stopAtPos, tripped, isRecognized, commandOf, lineBytes, charBytes, processMove,
    processReset, applyX, applyY, applyZ, applyE, modeDelta, absQ, List.lookup,
    beq_eq_decide, d5, d10]

/-- C5: a line made of a recognized command token immediately followed by
the line terminator (as `readline` returns it) splits into a single token
that still carries the terminator, fails the `_VALID_COMMANDS` membership
test, and is skipped: no positioning mode, last position, or accumulated
distance changes. -/
theorem bare_command_line_skipped (st : GState) (cmd : List Char)
    (h : cmd ∈ VALID_COMMANDS) :
    splitSpaces (cmd ++ ['\n']) = [cmd ++ ['\n']] ∧
    (cmd ++ ['\n']) ∉ VALID_COMMANDS ∧
    processLine st (cmd ++ ['\n']) = st := by
  rcases (mem_VALID_COMMANDS_iff cmd).1 h with hc | hc | hc | hc | hc | hc | hc <;>
    subst hc <;> exact ⟨by decide, by decide, rfl⟩

/-- Witness for C5 at the concrete command `G90`. -/
theorem bare_command_line_skipped_witness :
    "G90".data ∈ VALID_COMMANDS ∧
    (splitSpaces ("G90".data ++ ['\n']) = ["G90".data ++ ['\n']] ∧
     ("G90".data ++ ['\n']) ∉ VALID_COMMANDS ∧
     processLine initState ("G90".data ++ ['\n']) = initState) :=
  ⟨by decide, bare_command_line_skipped initState "G90".data (by decide)⟩

/-- C6: a parameter token whose suffix after the one-character selector does
not parse as a float (including the empty token produced by consecutive
spaces) is silently dropped: processing the command with the malformed token
present equals processing it with the token removed, so no tracked value is
altered by it and no error is raised (the embedding is total). -/
theorem malformed_token_ignored (st : GState) (cmd : List Char)
    (pre post : List (List Char)) (v : List Char)
    (h : pyFloat? (v.drop 1) = none) :
    applyCommand st cmd (pre ++ v :: post) = applyCommand st cmd (pre ++ post) := by
  have hte : tokenEntry v = none := by
    cases v with
    | nil => rfl
    | cons c rest =>
      simp only [List.drop_succ_cons, List.drop_zero] at h
      simp [tokenEntry, h]
  have hmv : movesOf (pre ++ v :: post) = movesOf (pre ++ post) := by
    unfold movesOf
    rw [List.foldl_append, List.foldl_append]
    simp [hte]
  simp only [applyCommand, hmv]

/-- Witness for C6: the token `XABC` (malformed numeric suffix) on a `G1`
line, and the empty token from consecutive spaces, are both dropped. -/
theorem malformed_token_ignored_witness :
    (pyFloat? (("XABC\n".data).drop 1) = none ∧
     applyCommand initState "G1".data ["XABC\n".data] =
       applyCommand initState "G1".data []) ∧
    (pyFloat? (([] : List Char).drop 1) = none ∧
     applyCommand initState "G1".data [[], "X5\n".data] =
       applyCommand initState "G1".data ["X5\n".data]) :=
  ⟨⟨by decide, malformed_token_ignored initState "G1".data [] [] "XABC\n".data (by decide)⟩,
   ⟨by decide, malformed_token_ignored initState "G1".data [] ["X5\n".data] [] (by decide)⟩⟩

/-- C7: the mapping returned by `read` is, per axis, the accumulated total
at the end of the call minus the total at the start of the call — the
distance accumulated during this call only, for any starting reader state
(hence also for later calls on the same open stream) and any parameters. -/
theorem read_returns_call_delta (r : GCodeReader) (fp : Option Int) (me : Option ℚ) :
    (GCodeReader.read r fp me).2.x
        = (GCodeReader.read r fp me).1.st.totalDistances.x - r.st.totalDistances.x ∧
    (GCodeReader.read r fp me).2.y
        = (GCodeReader.read r fp me).1.st.totalDistances.y - r.st.totalDistances.y ∧
    (GCodeReader.read r fp me).2.z
        = (GCodeReader.read r fp me).1.st.totalDistances.z - r.st.totalDistances.z ∧
    (GCodeReader.read r fp me).2.e
        = (GCodeReader.read r fp me).1.st.totalDistances.e - r.st.totalDistances.e := by
  rw [read_snd, read_fst]
  simp

/-- C9: a `G92` line, in every positioning mode, leaves every accumulated
distance unchanged and sets the last-known position of exactly the axes
present in its parsed parameters to the given values. -/
theorem reset_sets_positions_only (st : GState) (line : List Char)
    (h : commandOf line = "G92".data) :
    (processLine st line).totalDistances = st.totalDistances ∧
    (processLine st line).lastPositions.x
        = ((movesOf (paramsOf line)).lookup 'X').getD st.lastPositions.x ∧
    (processLine st line).lastPositions.y
        = ((movesOf (paramsOf line)).lookup 'Y').getD st.lastPositions.y ∧
    (processLine st line).lastPositions.z
        = ((movesOf (paramsOf line)).lookup 'Z').getD st.lastPositions.z ∧
    (processLine st line).lastPositions.e
        = ((movesOf (paramsOf line)).lookup 'E').getD st.lastPositions.e := by
  rw [processLine_eq, h, applyCommand_G92]
  have hc := processReset_char st (movesOf (paramsOf line))
  exact ⟨hc.2.2.1, hc.2.2.2.1, hc.2.2.2.2.1, hc.2.2.2.2.2.1, hc.2.2.2.2.2.2⟩

/-- C8: both positioning modes start `absolute`; `G90`/`G91` set both modes
together, `M82`/`M83` set only the extruder mode, and every other line —
moves, resets, unrecognized commands — changes neither mode; hence each mode
persists until its next mode-switch command. -/
theorem modes_init_and_transitions :
    (initState.mode = Mode.absolute ∧ initState.extruderMode = Mode.absolute) ∧
    ∀ (st : GState) (line : List Char),
      ((processLine st line).mode, (processLine st line).extruderMode) =
        (if commandOf line = "G90".data then (Mode.absolute, Mode.absolute)
         else if commandOf line = "G91".data then (Mode.relative, Mode.relative)
         else if commandOf line = "M82".data then (st.mode, Mode.absolute)
         else if commandOf line = "M83".data then (st.mode, Mode.relative)
         else (st.mode, st.extruderMode)) := by
  refine ⟨⟨rfl, rfl⟩, fun st line => ?_⟩
  rw [processLine_eq]
  by_cases hmem : commandOf line ∈ VALID_COMMANDS
  · rcases (mem_VALID_COMMANDS_iff _).1 hmem with hc | hc | hc | hc | hc | hc | hc <;>
      rw [hc]
    · rw [applyCommand_G90]; simp +decide
    · rw [applyCommand_G91]; simp +decide
    · rw [applyCommand_G92]
      have hp := processReset_char st (movesOf (paramsOf line))
      simp +decide [hp.1, hp.2.1]
    · rw [applyCommand_G1]
      have hp := processMove_char st (movesOf (paramsOf line))
      simp +decide [hp.1, hp.2.1]
    · rw [applyCommand_G0]
      have hp := processMove_char st (movesOf (paramsOf line))
      simp +decide [hp.1, hp.2.1]
    · rw [applyCommand_M82]; simp +decide
    · rw [applyCommand_M83]; simp +decide
  · rw [applyCommand_not_mem _ _ _ hmem]
    have h90 : commandOf line ≠ "G90".data := fun hh => hmem (by rw [hh]; decide)
    have h91 : commandOf line ≠ "G91".data := fun hh => hmem (by rw [hh]; decide)
    have h82 : commandOf line ≠ "M82".data := fun hh => hmem (by rw [hh]; decide)
    have h83 : commandOf line ≠ "M83".data := fun hh => hmem (by rw [hh]; decide)
    simp [h90, h91, h82, h83]

/-- C3 counterexample: the claim says the scan never consumes a line that
would leave the read cursor at or beyond `stop_at_byte_offset` — which would
force the zero mapping here, since consuming the only line leaves the cursor
at byte `7 ≥ 3`.  The code checks the cursor only before reading, so it
consumes the line (`rest = []`), leaves the cursor at `7`, and accumulates
`x = 10`. -/
theorem stop_offset_crossing_counterexample :
    (GCodeReader.read (initReader ["G1 X10\n".data]) (some 3) none).2.x = 10 ∧
    (GCodeReader.read (initReader ["G1 X10\n".data]) (some 3) none).1.pos = 7 ∧
    (GCodeReader.read (initReader ["G1 X10\n".data]) (some 3) none).1.rest = [] ∧
    (3 : Int) ≤ 7 := by
  have d10 : digitsToNat ['1', '0'] = 10 := by decide
  norm_num +decide [GCodeReader.read, readLoop, processLine, applyCommand, movesOf,
    tokenEntry, pyFloat?, stripWs, isPySpace, parseSign, parseUnsigned, parseExp,
    takeDigits, pow10, scale10, splitSpaces, VALID_COMMANDS, initReader, initState,
    stopAtPos, tripped, isRecognized, commandOf, lineBytes, charBytes, processMove,
    processReset, applyX, applyY, applyZ, applyE, modeDelta, absQ, List.lookup,
    beq_eq_decide, d10]

/-- C3 (amended): the loop checks the cursor against the byte offset only
before each read, so whenever the offset is at or before the current cursor
— in particular at call entry — the scan stops there: a call whose offset is
at or before its starting cursor consumes nothing, changes nothing, and
returns the all-zero mapping.  (A line that begins before the offset may
still be consumed in full even if it leaves the cursor at or beyond the
offset — see the counterexample.) -/
theorem stop_offset_at_or_past_cursor (r : GCodeReader) (p : Int) (me : Option ℚ)
    (h : p ≤ (r.pos : Int)) :
    GCodeReader.read r (some p) me = (r, ⟨0, 0, 0, 0⟩) := by
  unfold GCodeReader.read
  simp only [readLoop_stopped p me r.st.totalDistances.e r.st r.pos r.rest h]
  exact Prod.ext rfl (by simp)

/-- Witness for C3 at a reader whose cursor (byte 7) is already past the
offset 5. -/
theorem stop_offset_at_or_past_cursor_witness :
    ((5 : Int) ≤ ((⟨initState, 7, ["G1 X10\n".data]⟩ : GCodeReader).pos : Int)) ∧
    GCodeReader.read ⟨initState, 7, ["G1 X10\n".data]⟩ (some 5) none
      = (⟨initState, 7, ["G1 X10\n".data]⟩, ⟨0, 0, 0, 0⟩) :=
  ⟨by decide, stop_offset_at_or_past_cursor _ 5 none (by decide)⟩

/-- C2 counterexample: the claim says the extrusion entry is assigned the
*magnitude* of each E-bearing move's delta.  In relative extruder mode the
code assigns the verbatim value: after `G91` and `G1 E-5`, the entry holds
`-5`, not the magnitude `5`. -/
theorem extrusion_magnitude_counterexample :
    (GCodeReader.read (initReader ["G91 \n".data, "G1 E-5\n".data]) none none).1.st.totalDistances.e
        = -5 ∧
    absQ ((-5 : ℚ) - 0) = 5 ∧ ((-5 : ℚ) ≠ 5) := by
  have d5 : digitsToNat ['5'] = 5 := by decide
  norm_num +decide [GCodeReader.read, readLoop, processLine, applyCommand, movesOf,
    tokenEntry, pyFloat?, stripWs, isPySpace, parseSign, parseUnsigned, parseExp,
    takeDigits, pow10, scale10, splitSpaces, VALID_COMMANDS, initReader, initState,
    stopAtPos, tripped, isRecognized, commandOf, lineBytes, charBytes, processMove,
    processReset, applyX, applyY, applyZ, applyE, modeDelta, absQ, List.lookup,
    beq_eq_decide, d5]

theorem processLine_total_e_of_eMove (st : GState) (line : List Char) (v : ℚ)
    (hv : eMoveVal line = some v) :
    (processLine st line).totalDistances.e
      = modeDelta st.extruderMode st.lastPositions.e v := by
  rw [processLine_eq]
  unfold eMoveVal at hv
  by_cases hmv : commandOf line = "G1".data ∨ commandOf line = "G0".data
  · rw [if_pos hmv] at hv
    rcases hmv with hc | hc <;> rw [hc]
    · rw [applyCommand_G1, (processMove_char st (movesOf (paramsOf line))).2.2.2.2.2, hv]
    · rw [applyCommand_G0, (processMove_char st (movesOf (paramsOf line))).2.2.2.2.2, hv]
  · rw [if_neg hmv] at hv
    exact absurd hv (by simp)

/-- C2 (amended): the extrusion entry of the accumulated distances is
*assigned* (not added) each E-bearing move's extruder-mode delta —
`abs(new - last)` when the extruder mode is absolute, the verbatim
(possibly negative) parameter value when relative — so after a full
unlimited scan the entry equals exactly the delta assigned by the last
E-bearing move command, independent of the entry's prior value and of any
earlier E moves of the call. -/
theorem extrusion_assigned_last_delta (st : GState) (pos : Nat)
    (line : List Char) (post : List (List Char)) (v : ℚ)
    (hv : eMoveVal line = some v)
    (hpost : ∀ l ∈ post, eMoveVal l = none)
    (hne : ∀ l ∈ line :: post, l ≠ []) :
    (GCodeReader.read ⟨st, pos, line :: post⟩ none none).1.st.totalDistances.e
        = modeDelta st.extruderMode st.lastPositions.e v := by
  rw [read_fst]
  show (readLoop none none st.totalDistances.e st pos (line :: post)).1.totalDistances.e = _
  rw [readLoop_no_limits st.totalDistances.e st pos (line :: post) hne]
  rw [List.foldl_cons]
  rw [foldl_total_e_unchanged (processLine st line) post hpost]
  exact processLine_total_e_of_eMove st line v hv

/-- Witness for C2 at the lines `G1 E7` then `G92 X1` from the initial
state: the final extrusion entry is the delta assigned by the E move. -/
theorem extrusion_assigned_last_delta_witness :
    eMoveVal "G1 E7\n".data = some 7 ∧
    (GCodeReader.read ⟨initState, 0, ["G1 E7\n".data, "G92 X1\n".data]⟩ none none).1.st.totalDistances.e
        = modeDelta initState.extruderMode initState.lastPositions.e 7 := by
  have d7 : digitsToNat ['7'] = 7 := by decide
  have hv : eMoveVal "G1 E7\n".data = some 7 := by
    norm_num +decide [eMoveVal, movesOf, tokenEntry, pyFloat?, stripWs, isPySpace,
      parseSign, parseUnsigned, parseExp, takeDigits, pow10, scale10, splitSpaces,
      commandOf, paramsOf, List.lookup, beq_eq_decide, d7]
  refine ⟨hv, extrusion_assigned_last_delta initState 0 _ _ 7 hv ?_ ?_⟩
  · intro l hl
    simp only [List.mem_singleton] at hl
    subst hl
    decide
  · intro l hl
    fin_cases hl <;> decide

theorem modeDelta_nonneg (m : Mode) (last v : ℚ) (hv : 0 ≤ v) :
    0 ≤ modeDelta m last v := by
  unfold modeDelta
  split
  · exact absQ_nonneg _
  · exact hv

theorem processMove_total_mono (st : GState) (m : List (Char × ℚ))
    (h : ∀ a ∈ (['X', 'Y', 'Z'] : List Char), ∀ v : ℚ, m.lookup a = some v → 0 ≤ v) :
    st.totalDistances.x ≤ (processMove st m).totalDistances.x ∧
    st.totalDistances.y ≤ (processMove st m).totalDistances.y ∧
    st.totalDistances.z ≤ (processMove st m).totalDistances.z := by
  have hp := processMove_char st m
  refine ⟨?_, ?_, ?_⟩
  · rw [hp.2.2.1]
    rcases hX : m.lookup 'X' with _ | v
    · show st.totalDistances.x ≤ st.totalDistances.x + 0
      linarith
    · have h0 := modeDelta_nonneg st.mode st.lastPositions.x v (h 'X' (by simp) v hX)
      show st.totalDistances.x ≤ st.totalDistances.x + modeDelta st.mode st.lastPositions.x v
      linarith
  · rw [hp.2.2.2.1]
    rcases hY : m.lookup 'Y' with _ | v
    · show st.totalDistances.y ≤ st.totalDistances.y + 0
      linarith
    · have h0 := modeDelta_nonneg st.mode st.lastPositions.y v (h 'Y' (by simp) v hY)
      show st.totalDistances.y ≤ st.totalDistances.y + modeDelta st.mode st.lastPositions.y v
      linarith
  · rw [hp.2.2.2.2.1]
    rcases hZ : m.lookup 'Z' with _ | v
    · show st.totalDistances.z ≤ st.totalDistances.z + 0
      linarith
    · have h0 := modeDelta_nonneg st.mode st.lastPositions.z v (h 'Z' (by simp) v hZ)
      show st.totalDistances.z ≤ st.totalDistances.z + modeDelta st.mode st.lastPositions.z v
      linarith

theorem processLine_total_mono (st : GState) (line : List Char)
    (h : xyzValsNonneg line) :
    st.totalDistances.x ≤ (processLine st line).totalDistances.x ∧
    st.totalDistances.y ≤ (processLine st line).totalDistances.y ∧
    st.totalDistances.z ≤ (processLine st line).totalDistances.z := by
  rw [processLine_eq]
  by_cases hmem : commandOf line ∈ VALID_COMMANDS
  · rcases (mem_VALID_COMMANDS_iff _).1 hmem with hc | hc | hc | hc | hc | hc | hc <;>
      rw [hc]
    · rw [applyCommand_G90]; exact ⟨le_rfl, le_rfl, le_rfl⟩
    · rw [applyCommand_G91]; exact ⟨le_rfl, le_rfl, le_rfl⟩
    · rw [applyCommand_G92]
      rw [(processReset_char st (movesOf (paramsOf line))).2.2.1]
      exact ⟨le_rfl, le_rfl, le_rfl⟩
    · rw [applyCommand_G1]
      exact processMove_total_mono st (movesOf (paramsOf line)) h
    · rw [applyCommand_G0]
      exact processMove_total_mono st (movesOf (paramsOf line)) h
    · rw [applyCommand_M82]; exact ⟨le_rfl, le_rfl, le_rfl⟩
    · rw [applyCommand_M83]; exact ⟨le_rfl, le_rfl, le_rfl⟩
  · rw [applyCommand_not_mem _ _ _ hmem]
    exact ⟨le_rfl, le_rfl, le_rfl⟩

/-- C4 counterexample: the claim says the x/y/z entries never decrease in
either positioning mode.  In relative mode the raw value is added, so after
`G91` the move `G1 X-5` drives the x entry from `0` down to `-5`. -/
theorem xyz_monotone_counterexample :
    initState.totalDistances.x = 0 ∧
    (GCodeReader.read (initReader ["G91 \n".data, "G1 X-5\n".data]) none none).1.st.totalDistances.x
        = -5 ∧
    ((-5 : ℚ) < 0) := by
  have d5 : digitsToNat ['5'] = 5 := by decide
  norm_num +decide [GCodeReader.read, readLoop, processLine, applyCommand, movesOf,
    tokenEntry, pyFloat?, stripWs, isPySpace, parseSign, parseUnsigned, parseExp,
    takeDigits, pow10, scale10, splitSpaces, VALID_COMMANDS, initReader, initState,
    stopAtPos, tripped, isRecognized, commandOf, lineBytes, charBytes, processMove,
    processReset, applyX, applyY, applyZ, applyE, modeDelta, absQ, List.lookup,
    beq_eq_decide, d5]

/-- C4 (amended): across any scan — any starting state, byte-offset limit,
and extrusion limit — the x, y and z accumulated-distance entries are
monotonically non-decreasing, provided every X/Y/Z parameter value parsed
from the processed lines is non-negative.  (In absolute mode the increment
is an absolute value, so it never decreases regardless; in relative mode the
raw value is added, so a negative relative value can decrease an entry — see
the counterexample.) -/
theorem xyz_monotone_nonneg_values (fp : Option Int) (me : Option ℚ) (snapE : ℚ)
    (st : GState) (pos : Nat) (lines : List (List Char))
    (h : ∀ l ∈ lines, xyzValsNonneg l) :
    st.totalDistances.x ≤ (readLoop fp me snapE st pos lines).1.totalDistances.x ∧
    st.totalDistances.y ≤ (readLoop fp me snapE st pos lines).1.totalDistances.y ∧
    st.totalDistances.z ≤ (readLoop fp me snapE st pos lines).1.totalDistances.z := by
  induction lines generalizing st pos with
  | nil => exact ⟨le_rfl, le_rfl, le_rfl⟩
  | cons line rest ih =>
    unfold readLoop
    by_cases hstop : stopAtPos fp pos = true
    · rw [if_pos hstop]; exact ⟨le_rfl, le_rfl, le_rfl⟩
    · rw [if_neg hstop]
      by_cases hemp : line = []
      · rw [if_pos hemp]; exact ⟨le_rfl, le_rfl, le_rfl⟩
      · rw [if_neg hemp]
        have hline := processLine_total_mono st line (h line (by simp))
        by_cases htr : (isRecognized line && tripped me snapE) = true
        · rw [if_pos htr]; exact hline
        · rw [if_neg htr]
          have hrest := ih (processLine st line) (pos + lineBytes line)
            (fun l hl => h l (by simp [hl]))
          exact ⟨le_trans hline.1 hrest.1, le_trans hline.2.1 hrest.2.1,
                 le_trans hline.2.2 hrest.2.2⟩

/-- Witness for C4 at the single line `G1 X2` from the initial state. -/
theorem xyz_monotone_nonneg_values_witness :
    (∀ l ∈ [("G1 X2\n".data)], xyzValsNonneg l) ∧
    (initState.totalDistances.x
        ≤ (readLoop none none 0 initState 0 [("G1 X2\n".data)]).1.totalDistances.x ∧
     initState.totalDistances.y
        ≤ (readLoop none none 0 initState 0 [("G1 X2\n".data)]).1.totalDistances.y ∧
     initState.totalDistances.z
        ≤ (readLoop none none 0 initState 0 [("G1 X2\n".data)]).1.totalDistances.z) := by
  have d2 : digitsToNat ['2'] = 2 := by decide
  have hx : (movesOf (paramsOf ("G1 X2\n".data))).lookup 'X' = some 2 := by
    norm_num +decide [movesOf, tokenEntry, pyFloat?, stripWs, isPySpace, parseSign,
      parseUnsigned, parseExp, takeDigits, pow10, scale10, splitSpaces, paramsOf,
      List.lookup, beq_eq_decide, d2]
  have hw : ∀ l ∈ [("G1 X2\n".data)], xyzValsNonneg l := by
    intro l hl
    simp only [List.mem_singleton] at hl
    subst hl
    intro a ha v hv
    fin_cases ha
    · rw [hx] at hv
      injection hv with h2
      rw [← h2]
      norm_num
    · rw [show (movesOf (paramsOf ("G1 X2\n".data))).lookup 'Y' = none from by decide] at hv
      exact absurd hv (by simp)
    · rw [show (movesOf (paramsOf ("G1 X2\n".data))).lookup 'Z' = none from by decide] at hv
      exact absurd hv (by simp)
  exact ⟨hw, xyz_monotone_nonneg_values none none 0 initState 0 _ hw⟩

theorem ReadTrace_readLoop (st : GState) (lines : List (List Char)) (st' : GState)
    (h : ReadTrace st lines st') (snapE : ℚ) (pos : Nat) :
    (readLoop none none snapE st pos lines).1 = st' := by
  induction h generalizing pos with
  | done st => rfl
  | eof st rest => rfl
  | step st line rest st' hne htr ih =>
    unfold readLoop
    rw [if_neg (by simp [stopAtPos]), if_neg hne,
        if_neg (by simp [tripped] : ¬ ((isRecognized line && tripped none snapE) = true))]
    exact ih (pos + lineBytes line)

/-- C10: determinism and stability of re-scanning — any execution of the
unlimited scan loop over the same content from a freshly constructed reader
(captured by the `ReadTrace` step relation) produces exactly the mapping
that `read` returns, so every repeated full scan of an unmodified stream
yields the same result mapping as the first. -/
theorem rescan_deterministic (lines : List (List Char)) (r : AxisVals)
    (h : ScanOutcome lines r) :
    r = (GCodeReader.read (initReader lines) none none).2 := by
  obtain ⟨st', tr, rfl⟩ := h
  rw [read_snd]
  show _ = AxisVals.mk
    ((readLoop none none initState.totalDistances.e initState 0 lines).1.totalDistances.x
      - initState.totalDistances.x)
    ((readLoop none none initState.totalDistances.e initState 0 lines).1.totalDistances.y
      - initState.totalDistances.y)
    ((readLoop none none initState.totalDistances.e initState 0 lines).1.totalDistances.z
      - initState.totalDistances.z)
    ((readLoop none none initState.totalDistances.e initState 0 lines).1.totalDistances.e
      - initState.totalDistances.e)
  rw [ReadTrace_readLoop initState lines st' tr initState.totalDistances.e 0]
  simp [initState]

/-- Witness for C10: a one-line scan outcome, fed through the theorem. -/
theorem rescan_deterministic_witness :
    ScanOutcome ["G90 \n".data] ⟨0, 0, 0, 0⟩ ∧
    (⟨0, 0, 0, 0⟩ : AxisVals)
      = (GCodeReader.read (initReader ["G90 \n".data]) none none).2 := by
  have hs : ScanOutcome ["G90 \n".data] ⟨0, 0, 0, 0⟩ :=
    ⟨processLine initState "G90 \n".data,
     ReadTrace.step _ _ _ _ (by decide) (ReadTrace.done _), rfl⟩
  exact ⟨hs, rescan_deterministic _ _ hs⟩

/-- Witness for C9 at the concrete line `G92 X5\n` in the initial state. -/
theorem reset_sets_positions_only_witness :
    commandOf "G92 X5\n".data = "G92".data ∧
    ((processLine initState "G92 X5\n".data).totalDistances = initState.totalDistances ∧
     (processLine initState "G92 X5\n".data).lastPositions.x
         = ((movesOf (paramsOf "G92 X5\n".data)).lookup 'X').getD initState.lastPositions.x ∧
     (processLine initState "G92 X5\n".data).lastPositions.y
         = ((movesOf (paramsOf "G92 X5\n".data)).lookup 'Y').getD initState.lastPositions.y ∧
     (processLine initState "G92 X5\n".data).lastPositions.z
         = ((movesOf (paramsOf "G92 X5\n".data)).lookup 'Z').getD initState.lastPositions.z ∧
     (processLine initState "G92 X5\n".data).lastPositions.e
         = ((movesOf (paramsOf "G92 X5\n".data)).lookup 'E').getD initState.lastPositions.e) :=
  ⟨by decide, reset_sets_positions_only initState "G92 X5\n".data (by decide)⟩

end MotionMinder
